import Mathlib

set_option maxRecDepth 8000

/- Verification of the record-parsing and aggregation pipelines of the
FundamentalsOfPythonProgramming repository (TaskC/task_c.py, TaskD/task_d.py,
TaskE/task_e.py).

Modelling conventions:
- Python str values are Lean String; character-level operations are written
  over String.data so that every definition is kernel-computable.
- Python float is modelled as the exact rational ℚ.  All numeric values
  exercised by the repository (integral Wh readings divided by 1000, prices
  with two decimals) are exactly representable, so the rational model agrees
  with IEEE double on every concrete value appearing below.
- Python int(...) and float(...) literal parsing is modelled on the ASCII
  decimal fragment (no underscore separators, exponents, inf or nan), which
  covers every input format the repository handles.
- datetime.strptime is modelled per CPython _strptime: %Y is exactly four
  digits, %m / %d / %H / %M / %S are one or two digits within range, and the
  resulting date is validated against the month length, exactly as the
  datetime constructor does.  Whitespace runs in a format string match any
  whitespace in CPython; the model fixes the canonical single space, which
  agrees with CPython on all strftime-canonical inputs.
- strftime output follows CPython on glibc: %Y is printed unpadded, the
  two-digit directives are zero-padded.
-/

/-- ASCII whitespace as recognised by Python str.strip, int and float. -/
def isPySpace (c : Char) : Bool :=
  c == ' ' || c == '\t' || c == '\n' || c == '\r' || c == '\x0b' || c == '\x0c'

/-- Python str.strip(): remove leading and trailing whitespace. -/
def pyStrip (s : String) : String :=
  ⟨((s.data.dropWhile isPySpace).reverse.dropWhile isPySpace).reverse⟩

/-- Python str.split(sep) for a one-character separator, on char lists. -/
def splitCh (c : Char) : List Char → List (List Char)
  | [] => [[]]
  | a :: rest =>
    match splitCh c rest with
    | [] => [[]]
    | g :: gs => if a == c then [] :: g :: gs else (a :: g) :: gs

/-- Python line.split("|"), as used by fetch_reservations. -/
def splitPipe (s : String) : List String :=
  (splitCh '|' s.data).map String.mk

/-- Python sep.join(parts). -/
def joinSep (sep : String) : List String → String
  | [] => ""
  | [s] => s
  | s :: rest => s ++ sep ++ joinSep sep rest

/-- Zero-pad a number to two digits, as strftime %m %d %H %M %S do. -/
def pad2 (n : Nat) : String :=
  if n < 10 then "0" ++ Nat.repr n else Nat.repr n

/-- Numeric value of a string of ASCII digits. -/
def digitsVal (l : List Char) : Nat :=
  l.foldl (fun a c => a * 10 + (c.toNat - 48)) 0

/-- Nonempty and all ASCII digits. -/
def allDigits (l : List Char) : Bool :=
  !l.isEmpty && l.all Char.isDigit

/-- Python int(s) on the ASCII decimal fragment: surrounding whitespace,
optional sign, a nonempty digit string. -/
def pyInt (s : String) : Option Int :=
  let t := ((s.data.dropWhile isPySpace).reverse.dropWhile isPySpace).reverse
  match t with
  | '-' :: ds => if allDigits ds then some (-(digitsVal ds : Int)) else none
  | '+' :: ds => if allDigits ds then some (digitsVal ds : Int) else none
  | ds => if allDigits ds then some (digitsVal ds : Int) else none

/-- Python str(i) for an int. -/
def intRepr (i : Int) : String :=
  if i < 0 then "-" ++ Nat.repr i.natAbs else Nat.repr i.natAbs

/-- Unsigned body of a Python float literal: digits, or digits.digits with at
least one digit present overall (covers forms such as 18.5, 18., .5, 18). -/
def pyFloatBody (l : List Char) : Option ℚ :=
  match splitCh '.' l with
  | [ip] => if allDigits ip then some ((digitsVal ip : ℚ)) else none
  | [ip, fp] =>
    if (ip.all Char.isDigit && fp.all Char.isDigit) && !(ip.isEmpty && fp.isEmpty) then
      some ((digitsVal ip : ℚ) + (digitsVal fp : ℚ) / (10 : ℚ) ^ fp.length)
    else none
  | _ => none

/-- Python float(s) on the ASCII decimal fragment: surrounding whitespace,
optional sign, decimal body. -/
def pyFloat (s : String) : Option ℚ :=
  let t := ((s.data.dropWhile isPySpace).reverse.dropWhile isPySpace).reverse
  match t with
  | '-' :: ds => (pyFloatBody ds).map (fun q => -q)
  | '+' :: ds => pyFloatBody ds
  | ds => pyFloatBody ds

/-- Decimal digits of the fractional part of a rational in [0, 1), with fuel
bounding the number of digits produced. -/
def fracDigitsAux : Nat → ℚ → List Char
  | 0, _ => []
  | fuel + 1, q =>
    if q = 0 then []
    else
      let q10 := q * 10
      let d := q10.num.toNat / q10.den
      Nat.digitChar d :: fracDigitsAux fuel (q10 - (d : ℚ))

/-- Python str(x) for a float with a finite decimal expansion: minimal decimal
digits, always at least one fractional digit (str(2.0) is the string 2.0). -/
def encodePyFloat (q : ℚ) : String :=
  let sgn := if q < 0 then "-" else ""
  let a := |q|
  let ip := a.num.toNat / a.den
  let frac := a - (ip : ℚ)
  let fds := fracDigitsAux 40 frac
  sgn ++ Nat.repr ip ++ "." ++ (if fds.isEmpty then "0" else String.mk fds)

/-- Gregorian leap year, as datetime uses. -/
def isLeap (y : Nat) : Bool :=
  y % 4 == 0 && (y % 100 != 0 || y % 400 == 0)

/-- Number of days in a month of a given year. -/
def monthLen (y m : Nat) : Nat :=
  if m == 2 then (if isLeap y then 29 else 28)
  else if m == 4 || m == 6 || m == 9 || m == 11 then 30
  else 31

/-- A calendar date as held by datetime.date. -/
structure Date where
  year : Nat
  month : Nat
  day : Nat
deriving DecidableEq

/-- A time of day as parsed by strptime with format %H:%M. -/
structure TimeHM where
  hour : Nat
  minute : Nat
deriving DecidableEq

/-- A timestamp as held by datetime.datetime (to second precision). -/
structure DateTime where
  year : Nat
  month : Nat
  day : Nat
  hour : Nat
  minute : Nat
  second : Nat
deriving DecidableEq

/-- datetime.date() of a timestamp. -/
def DateTime.date (t : DateTime) : Date :=
  ⟨t.year, t.month, t.day⟩

/-- strptime %Y: exactly four digits, then datetime requires year ≥ 1. -/
def parseYear4 (l : List Char) : Option Nat :=
  if (l.length == 4 && l.all Char.isDigit) && !(digitsVal l == 0) then
    some (digitsVal l)
  else none

/-- strptime two-digit directive: one or two digits, value within [lo, hi]. -/
def parseNum2 (lo hi : Nat) (l : List Char) : Option Nat :=
  if ((l.length == 1 || l.length == 2) && l.all Char.isDigit)
      && (decide (lo ≤ digitsVal l) && decide (digitsVal l ≤ hi)) then
    some (digitsVal l)
  else none

/-- datetime.strptime(s, %Y-%m-%d).date(): split on dashes, decode the three
components, then validate the day against the month length as the date
constructor does. -/
def parseDate (s : String) : Option Date :=
  match splitCh '-' s.data with
  | [ys, ms, ds] =>
    match parseYear4 ys, parseNum2 1 12 ms, parseNum2 1 31 ds with
    | some y, some m, some d =>
      if d ≤ monthLen y m then some ⟨y, m, d⟩ else none
    | _, _, _ => none
  | _ => none

/-- datetime.strptime(s, %H:%M).time(). -/
def parseTimeHM (s : String) : Option TimeHM :=
  match splitCh ':' s.data with
  | [hs, ms] =>
    match parseNum2 0 23 hs, parseNum2 0 59 ms with
    | some h, some m => some ⟨h, m⟩
    | _, _ => none
  | _ => none

/-- datetime.strptime(s, %Y-%m-%d %H:%M:%S).  Seconds are limited to 0..59:
the strptime regex admits 60 and 61 but the datetime constructor then rejects
them, so the net acceptance is the same. -/
def parseCreatedAt (s : String) : Option DateTime :=
  match splitCh ' ' s.data with
  | [dpart, tpart] =>
    match parseDate ⟨dpart⟩, splitCh ':' tpart with
    | some d, [hs, ms, ss] =>
      match parseNum2 0 23 hs, parseNum2 0 59 ms, parseNum2 0 59 ss with
      | some h, some mi, some sec => some ⟨d.year, d.month, d.day, h, mi, sec⟩
      | _, _, _ => none
    | _, _ => none
  | _ => none

/-- strftime(%Y-%m-%d) on glibc: unpadded year, padded month and day. -/
def encodeDate (d : Date) : String :=
  Nat.repr d.year ++ "-" ++ pad2 d.month ++ "-" ++ pad2 d.day

/-- strftime(%H:%M). -/
def encodeTimeHM (t : TimeHM) : String :=
  pad2 t.hour ++ ":" ++ pad2 t.minute

/-- str(datetime), equivalently strftime(%Y-%m-%d %H:%M:%S). -/
def encodeCreatedAt (t : DateTime) : String :=
  Nat.repr t.year ++ "-" ++ pad2 t.month ++ "-" ++ pad2 t.day ++ " "
    ++ pad2 t.hour ++ ":" ++ pad2 t.minute ++ ":" ++ pad2 t.second

/-- Floor of a rational (num and den of a normalized Rat, floor division). -/
def ratFloor (q : ℚ) : Int :=
  Int.fdiv q.num (q.den : Int)

/-- Round to the nearest integer, ties to even: the rounding CPython applies
when formatting with %.2f. -/
def roundHalfEven (q : ℚ) : Int :=
  let f := ratFloor q
  let r := q - (f : ℚ)
  if r < (1 : ℚ)/2 then f
  else if (1 : ℚ)/2 < r then f + 1
  else if f % 2 = 0 then f else f + 1

/-- Python f-string formatting with :.2f (sign, integer part, point, two
fractional digits).  The negative-zero rendering of IEEE floats (-0.00) is not
modelled; no claim exercises it. -/
def formatFixed2 (q : ℚ) : String :=
  let n := roundHalfEven (q * 100)
  let sgn := if n < 0 then "-" else ""
  sgn ++ Nat.repr (n.natAbs / 100) ++ "." ++ pad2 (n.natAbs % 100)

/-- Python s.replace(".", ",") for the one-character pattern. -/
def replaceDot (s : String) : String :=
  ⟨s.data.map (fun c => if c == '.' then ',' else c)⟩

/-- task_e.format_kwh / task_d.format_kwh: two decimals with a decimal comma. -/
def format_kwh (value : ℚ) : String :=
  replaceDot (formatFixed2 value)

/-- A converted reservation record, the typed shape produced by
convert_reservation_data in task_c.py. -/
structure Reservation where
  reservationId : Int
  name : String
  email : String
  phone : String
  reservationDate : Date
  reservationTime : TimeHM
  durationHours : Int
  price : ℚ
  confirmed : Bool
  reservedResource : String
  createdAt : DateTime
deriving DecidableEq

/-- The boolean decoding of column 8 in convert_reservation_data:
reservation[8] == "True". -/
def decodeConfirmed (s : String) : Bool :=
  s == "True"

/-- Conversion failure: a field of a given column fails type coercion
(CPython raises ValueError naming the raw value, from the conversion call of
that column), or the line does not have the 11 expected fields (CPython
raises IndexError at the first out-of-range access). -/
inductive ConvErr where
  | field (col : Nat) (raw : String)
  | arity (n : Nat)
deriving DecidableEq

/-- task_c.convert_reservation_data: strip the last field, then coerce the
11 columns in order; the first failing coercion aborts the conversion.
Columns 1, 2, 3, 9 stay strings and column 8 is the total boolean test, so
only columns 0, 4, 5, 6, 7 and 10 can fail. -/
def convert_reservation_data (fields : List String) : Except ConvErr Reservation :=
  match fields with
  | [f0, f1, f2, f3, f4, f5, f6, f7, f8, f9, f10] =>
    let f10s := pyStrip f10
    match pyInt f0 with
    | none => .error (.field 0 f0)
    | some rid =>
    match parseDate f4 with
    | none => .error (.field 4 f4)
    | some rdate =>
    match parseTimeHM f5 with
    | none => .error (.field 5 f5)
    | some rtime =>
    match pyInt f6 with
    | none => .error (.field 6 f6)
    | some dur =>
    match pyFloat f7 with
    | none => .error (.field 7 f7)
    | some price =>
    match parseCreatedAt f10s with
    | none => .error (.field 10 f10s)
    | some created =>
      .ok ⟨rid, f1, f2, f3, rdate, rtime, dur, price, decodeConfirmed f8, f9, created⟩
  | other => .error (.arity other.length)

/-- The state of the caller-supplied list after convert_reservation_data
returns or raises: the assignment reservation[-1] = reservation[-1].strip()
runs first and is the only mutation of the argument. -/
def convertMutatedArg : List String → List String
  | [] => []
  | [x] => [pyStrip x]
  | x :: y :: rest => x :: convertMutatedArg (y :: rest)

/-- Re-serialization of a converted record to the pipe-delimited textual form
using str() for ints, floats and booleans and the strptime format strings for
the date, time and timestamp columns. -/
def serializeReservation (r : Reservation) : String :=
  joinSep "|"
    [intRepr r.reservationId, r.name, r.email, r.phone,
     encodeDate r.reservationDate, encodeTimeHM r.reservationTime,
     intRepr r.durationHours, encodePyFloat r.price,
     (if r.confirmed then "True" else "False"), r.reservedResource,
     encodeCreatedAt r.createdAt]

deriving instance DecidableEq for Except

/-- task_c.fetch_reservations over the lines of the input file: split each
line on the pipe character, convert it, and stop at the first failure (the
exception propagates and no record list is returned). -/
def fetch_reservations : List String → Except ConvErr (List Reservation)
  | [] => .ok []
  | l :: ls =>
    match convert_reservation_data (splitPipe l) with
    | .error e => .error e
    | .ok r =>
      match fetch_reservations ls with
      | .error e => .error e
      | .ok rs => .ok (r :: rs)

/-- The revenue sum in task_c.total_revenue:
sum(r[7] * r[6] for r in reservations if r[8]). -/
def revenueSum (reservations : List Reservation) : ℚ :=
  ((reservations.filter (fun r => r.confirmed)).map
    (fun r => r.price * (r.durationHours : ℚ))).sum

/-- task_c.total_revenue: the line printed to standard output. -/
def total_revenue (reservations : List Reservation) : String :=
  "Total revenue from confirmed reservations: "
    ++ replaceDot (formatFixed2 (revenueSum reservations)) ++ " €"

/-- Fields of a reservation line that are all valid for their decoders but are
not all canonical: 007 parses as the integer 7. -/
def cexC1Fields : List String :=
  ["007", "Moomin Valley", "moomin@whitevalley.org", "0509876543", "2025-11-12",
   "09:00", "2", "18.5", "True", "Forest Area 1", "2025-08-12 14:33:20"]

/-- C1 counterexample: every field of cexC1Fields is accepted by its decoder
and the final field carries no surrounding whitespace, yet re-serializing the
converted record yields a different line (007 came back as 7), so the claimed
round trip fails. -/
theorem convert_roundtrip_not_exact :
    (convert_reservation_data cexC1Fields).map serializeReservation
      = .ok "7|Moomin Valley|moomin@whitevalley.org|0509876543|2025-11-12|09:00|2|18.5|True|Forest Area 1|2025-08-12 14:33:20"
    ∧ "7|Moomin Valley|moomin@whitevalley.org|0509876543|2025-11-12|09:00|2|18.5|True|Forest Area 1|2025-08-12 14:33:20"
        ≠ joinSep "|" cexC1Fields
    ∧ pyStrip "2025-08-12 14:33:20" = "2025-08-12 14:33:20" := by
  refine ⟨?_, ?_, ?_⟩ <;> with_unfolding_all decide

/-- C1 (amended): for a reservation line whose 11 fields are valid for their
decoders and canonical (each decodable field re-encodes to the original token,
the confirmed column is the literal True or False, and the final field is
already stripped of surrounding whitespace), converting with
convert_reservation_data and re-serializing with the same format strings
reproduces the pipe-delimited line, modulo the stripped whitespace of the
final field. -/
theorem convert_roundtrip_canonical
    (f0 f1 f2 f3 f4 f5 f6 f7 f8 f9 f10 : String)
    (h0 : (pyInt f0).map intRepr = some f0)
    (h4 : (parseDate f4).map encodeDate = some f4)
    (h5 : (parseTimeHM f5).map encodeTimeHM = some f5)
    (h6 : (pyInt f6).map intRepr = some f6)
    (h7 : (pyFloat f7).map encodePyFloat = some f7)
    (h8 : f8 = "True" ∨ f8 = "False")
    (h10 : (parseCreatedAt (pyStrip f10)).map encodeCreatedAt = some (pyStrip f10)) :
    (convert_reservation_data [f0, f1, f2, f3, f4, f5, f6, f7, f8, f9, f10]).map
        serializeReservation
      = .ok (joinSep "|" [f0, f1, f2, f3, f4, f5, f6, f7, f8, f9, pyStrip f10]) := by
  rcases Option.map_eq_some'.mp h0 with ⟨rid, hp0, he0⟩
  rcases Option.map_eq_some'.mp h4 with ⟨rdate, hp4, he4⟩
  rcases Option.map_eq_some'.mp h5 with ⟨rtime, hp5, he5⟩
  rcases Option.map_eq_some'.mp h6 with ⟨dur, hp6, he6⟩
  rcases Option.map_eq_some'.mp h7 with ⟨price, hp7, he7⟩
  rcases Option.map_eq_some'.mp h10 with ⟨created, hp10, he10⟩
  simp only [convert_reservation_data, hp0, hp4, hp5, hp6, hp7, hp10, Except.map]
  simp only [serializeReservation, he0, he4, he5, he6, he7, he10]
  rcases h8 with h8 | h8 <;> subst h8 <;> rfl

/-- Witness for C1: the canonical form of the docstring example line satisfies
every canonicity hypothesis and round-trips exactly. -/
theorem convert_roundtrip_canonical_witness :
    (pyInt "201").map intRepr = some "201"
    ∧ (parseDate "2025-11-12").map encodeDate = some "2025-11-12"
    ∧ (parseTimeHM "09:00").map encodeTimeHM = some "09:00"
    ∧ (pyInt "2").map intRepr = some "2"
    ∧ (pyFloat "18.5").map encodePyFloat = some "18.5"
    ∧ ("True" = "True" ∨ "True" = "False")
    ∧ (parseCreatedAt (pyStrip "2025-08-12 14:33:20")).map encodeCreatedAt
        = some (pyStrip "2025-08-12 14:33:20")
    ∧ (convert_reservation_data
        ["201", "Moomin Valley", "moomin@whitevalley.org", "0509876543",
         "2025-11-12", "09:00", "2", "18.5", "True", "Forest Area 1",
         "2025-08-12 14:33:20"]).map serializeReservation
      = .ok (joinSep "|"
        ["201", "Moomin Valley", "moomin@whitevalley.org", "0509876543",
         "2025-11-12", "09:00", "2", "18.5", "True", "Forest Area 1",
         pyStrip "2025-08-12 14:33:20"]) :=
  ⟨by with_unfolding_all decide, by with_unfolding_all decide,
   by with_unfolding_all decide, by with_unfolding_all decide,
   by with_unfolding_all decide, Or.inl rfl, by with_unfolding_all decide,
   convert_roundtrip_canonical "201" "Moomin Valley" "moomin@whitevalley.org"
     "0509876543" "2025-11-12" "09:00" "2" "18.5" "True" "Forest Area 1"
     "2025-08-12 14:33:20"
     (by with_unfolding_all decide) (by with_unfolding_all decide)
     (by with_unfolding_all decide) (by with_unfolding_all decide)
     (by with_unfolding_all decide) (Or.inl rfl)
     (by with_unfolding_all decide)⟩

/-- Helper: an arity mismatch gives the arity error, never a field error. -/
theorem convert_arity_error (l : List String) (h : l.length ≠ 11) :
    convert_reservation_data l = .error (.arity l.length) := by
  rcases l with _|⟨a0,_|⟨a1,_|⟨a2,_|⟨a3,_|⟨a4,_|⟨a5,_|⟨a6,_|⟨a7,_|⟨a8,_|⟨a9,_|⟨a10,tl⟩⟩⟩⟩⟩⟩⟩⟩⟩⟩⟩ <;>
    first
    | rfl
    | (cases tl with
       | nil => exact absurd rfl h
       | cons b tlb => rfl)

/-- Helper: a field error of convert_reservation_data names one of the six
fallible columns together with the raw value its decoder rejected. -/
theorem convert_error_characterization
    (f0 f1 f2 f3 f4 f5 f6 f7 f8 f9 f10 : String) (c : Nat) (raw : String)
    (h : convert_reservation_data [f0, f1, f2, f3, f4, f5, f6, f7, f8, f9, f10]
          = .error (.field c raw)) :
    (c = 0 ∧ raw = f0 ∧ pyInt f0 = none)
    ∨ (c = 4 ∧ raw = f4 ∧ parseDate f4 = none)
    ∨ (c = 5 ∧ raw = f5 ∧ parseTimeHM f5 = none)
    ∨ (c = 6 ∧ raw = f6 ∧ pyInt f6 = none)
    ∨ (c = 7 ∧ raw = f7 ∧ pyFloat f7 = none)
    ∨ (c = 10 ∧ raw = pyStrip f10 ∧ parseCreatedAt (pyStrip f10) = none) := by
  simp only [convert_reservation_data] at h
  cases hp0 : pyInt f0 <;> simp only [hp0] at h
  case none =>
    simp only [Except.error.injEq, ConvErr.field.injEq] at h
    exact Or.inl ⟨h.1.symm, h.2.symm, rfl⟩
  cases hp4 : parseDate f4 <;> simp only [hp4] at h
  case none =>
    simp only [Except.error.injEq, ConvErr.field.injEq] at h
    exact Or.inr (Or.inl ⟨h.1.symm, h.2.symm, rfl⟩)
  cases hp5 : parseTimeHM f5 <;> simp only [hp5] at h
  case none =>
    simp only [Except.error.injEq, ConvErr.field.injEq] at h
    exact Or.inr (Or.inr (Or.inl ⟨h.1.symm, h.2.symm, rfl⟩))
  cases hp6 : pyInt f6 <;> simp only [hp6] at h
  case none =>
    simp only [Except.error.injEq, ConvErr.field.injEq] at h
    exact Or.inr (Or.inr (Or.inr (Or.inl ⟨h.1.symm, h.2.symm, rfl⟩)))
  cases hp7 : pyFloat f7 <;> simp only [hp7] at h
  case none =>
    simp only [Except.error.injEq, ConvErr.field.injEq] at h
    exact Or.inr (Or.inr (Or.inr (Or.inr (Or.inl ⟨h.1.symm, h.2.symm, rfl⟩))))
  cases hp10 : parseCreatedAt (pyStrip f10) <;> simp only [hp10] at h
  case none =>
    simp only [Except.error.injEq, ConvErr.field.injEq] at h
    exact Or.inr (Or.inr (Or.inr (Or.inr (Or.inr ⟨h.1.symm, h.2.symm, rfl⟩))))
  case some.some.some.some.some.some => simp at h

/-- C4: the confirmed column decodes to true exactly on the literal True;
every other token, including the case variants true and TRUE, decodes to
false, and no conversion error ever arises from column 8. -/
theorem confirmed_literal_only :
    (∀ s : String, decodeConfirmed s = true ↔ s = "True")
    ∧ decodeConfirmed "true" = false
    ∧ decodeConfirmed "TRUE" = false
    ∧ (∀ (l : List String) (c : Nat) (raw : String),
        convert_reservation_data l = .error (.field c raw) → c ≠ 8) := by
  refine ⟨?_, rfl, rfl, ?_⟩
  · intro s
    simp [decodeConfirmed]
  · intro l c raw h
    by_cases hl : l.length = 11
    · rcases l with _|⟨f0,_|⟨f1,_|⟨f2,_|⟨f3,_|⟨f4,_|⟨f5,_|⟨f6,_|⟨f7,_|⟨f8,_|⟨f9,_|⟨f10,tl⟩⟩⟩⟩⟩⟩⟩⟩⟩⟩⟩ <;>
        simp_all
      rcases convert_error_characterization f0 f1 f2 f3 f4 f5 f6 f7 f8 f9 f10 c raw h with
        hc | hc | hc | hc | hc | hc <;> omega
    · rw [convert_arity_error l hl] at h
      simp at h

/-- Witness for C4: instantiating the quantified clauses at TRUE and at a
line whose first column fails. -/
theorem confirmed_literal_only_witness :
    (decodeConfirmed "TRUE" = true ↔ "TRUE" = "True")
    ∧ convert_reservation_data
        ["x", "n", "e", "p", "2025-11-12", "09:00", "2", "18.5", "maybe", "R",
         "2025-08-12 14:33:20"] = .error (.field 0 "x")
    ∧ (0 : Nat) ≠ 8 :=
  ⟨confirmed_literal_only.1 "TRUE", by with_unfolding_all decide,
   confirmed_literal_only.2.2.2
     ["x", "n", "e", "p", "2025-11-12", "09:00", "2", "18.5", "maybe", "R",
      "2025-08-12 14:33:20"] 0 "x" (by with_unfolding_all decide)⟩

/-- The two reservations of the revenue test property: one confirmed at price
18.50 for 2 hours, one unconfirmed at price 100 for 5 hours. -/
def revRecA : Reservation :=
  ⟨201, "A", "a@x", "1", ⟨2025, 11, 12⟩, ⟨9, 0⟩, 2, 37/2, true, "R1",
   ⟨2025, 8, 12, 14, 33, 20⟩⟩

def revRecB : Reservation :=
  ⟨202, "B", "b@x", "2", ⟨2025, 11, 13⟩, ⟨10, 0⟩, 5, 100, false, "R2",
   ⟨2025, 8, 12, 14, 33, 21⟩⟩

/-- C5: total_revenue prints the sum of price times durationHours over
confirmed records only (records failing the confirmed filter contribute
nothing), with two decimals, a decimal comma and the euro suffix; on the
two-record input of the claim the printed amount is exactly 37,00 €. -/
theorem total_revenue_confirmed_only :
    (∀ rs : List Reservation,
      total_revenue rs = total_revenue (rs.filter (fun r => r.confirmed)))
    ∧ (∀ rs : List Reservation,
      total_revenue rs = "Total revenue from confirmed reservations: "
        ++ replaceDot (formatFixed2 (revenueSum rs)) ++ " €")
    ∧ total_revenue [revRecA, revRecB]
        = "Total revenue from confirmed reservations: 37,00 €" := by
  refine ⟨?_, fun rs => rfl, by with_unfolding_all decide⟩
  intro rs
  simp [total_revenue, revenueSum, List.filter_filter]

/-- C10: convert_reservation_data mutates its argument: for an 11-element
list the caller sees the last element replaced in place by its stripped value
and the first 10 elements unchanged. -/
theorem convert_mutates_last_field (l : List String) (h : l.length = 11) :
    convertMutatedArg l = l.take 10 ++ [pyStrip (l.getD 10 "")] := by
  rcases l with _|⟨a0,_|⟨a1,_|⟨a2,_|⟨a3,_|⟨a4,_|⟨a5,_|⟨a6,_|⟨a7,_|⟨a8,_|⟨a9,_|⟨a10,tl⟩⟩⟩⟩⟩⟩⟩⟩⟩⟩⟩ <;>
    simp_all [convertMutatedArg]

/-- Witness for C10: the mutation on a concrete 11-element list whose final
field carries surrounding whitespace. -/
theorem convert_mutates_last_field_witness :
    (["201", "n", "e", "p", "2025-11-12", "09:00", "2", "18.5", "True", "R",
      " 2025-08-12 14:33:20\n"] : List String).length = 11
    ∧ convertMutatedArg
        ["201", "n", "e", "p", "2025-11-12", "09:00", "2", "18.5", "True", "R",
         " 2025-08-12 14:33:20\n"]
      = (["201", "n", "e", "p", "2025-11-12", "09:00", "2", "18.5", "True", "R",
          " 2025-08-12 14:33:20\n"] : List String).take 10
        ++ [pyStrip ((["201", "n", "e", "p", "2025-11-12", "09:00", "2", "18.5",
             "True", "R", " 2025-08-12 14:33:20\n"] : List String).getD 10 "")] :=
  ⟨rfl, convert_mutates_last_field
    ["201", "n", "e", "p", "2025-11-12", "09:00", "2", "18.5", "True", "R",
     " 2025-08-12 14:33:20\n"] rfl⟩

/-- Whether a conversion produced a record. -/
def isOkConv (x : Except ConvErr Reservation) : Bool :=
  match x with
  | .ok _ => true
  | .error _ => false

/-- C8: when a field of a line fails type coercion, the failure identifies the
offending column and raw value, and fetch_reservations is fail-fast: with every
line before the bad one converting, the whole read returns exactly the first
conversion error, producing no record for the bad line or any later line. -/
theorem fetch_failfast :
    (∀ (pre : List String) (l : String) (post : List String) (e : ConvErr),
        pre.all (fun l2 => isOkConv (convert_reservation_data (splitPipe l2))) = true →
        convert_reservation_data (splitPipe l) = .error e →
        fetch_reservations (pre ++ l :: post) = .error e)
    ∧ (∀ (f0 f1 f2 f3 f4 f5 f6 f7 f8 f9 f10 : String) (c : Nat) (raw : String),
        convert_reservation_data [f0, f1, f2, f3, f4, f5, f6, f7, f8, f9, f10]
            = .error (.field c raw) →
        (c = 0 ∧ raw = f0 ∧ pyInt f0 = none)
        ∨ (c = 4 ∧ raw = f4 ∧ parseDate f4 = none)
        ∨ (c = 5 ∧ raw = f5 ∧ parseTimeHM f5 = none)
        ∨ (c = 6 ∧ raw = f6 ∧ pyInt f6 = none)
        ∨ (c = 7 ∧ raw = f7 ∧ pyFloat f7 = none)
        ∨ (c = 10 ∧ raw = pyStrip f10 ∧ parseCreatedAt (pyStrip f10) = none)) := by
  constructor
  · intro pre l post e hpre hl
    induction pre with
    | nil => simp [fetch_reservations, hl]
    | cons p pre ih =>
      simp only [List.all_cons, Bool.and_eq_true] at hpre
      obtain ⟨hp, hpre2⟩ := hpre
      cases hcv : convert_reservation_data (splitPipe p) with
      | error e2 => rw [hcv] at hp; simp [isOkConv] at hp
      | ok r =>
        simp only [List.cons_append, fetch_reservations, hcv]
        rw [show pre.append (l :: post) = pre ++ l :: post from rfl, ih hpre2]
  · exact convert_error_characterization

/-- Witness for C8: a concrete file whose second line has a malformed price;
the read aborts with the error naming column 7 and the raw token. -/
theorem fetch_failfast_witness :
    (["201|A|a@x|1|2025-11-12|09:00|2|18.5|True|R1|2025-08-12 14:33:20"].all
        (fun l2 => isOkConv (convert_reservation_data (splitPipe l2))) = true)
    ∧ convert_reservation_data
        (splitPipe "202|B|b@x|2|2025-11-12|10:00|2|oops|True|R2|2025-08-12 14:33:21")
        = .error (.field 7 "oops")
    ∧ fetch_reservations
        ["201|A|a@x|1|2025-11-12|09:00|2|18.5|True|R1|2025-08-12 14:33:20",
         "202|B|b@x|2|2025-11-12|10:00|2|oops|True|R2|2025-08-12 14:33:21",
         "203|C|c@x|3|2025-11-12|11:00|2|20.0|True|R3|2025-08-12 14:33:22"]
        = .error (.field 7 "oops") :=
  ⟨by with_unfolding_all decide, by with_unfolding_all decide,
   fetch_failfast.1
     ["201|A|a@x|1|2025-11-12|09:00|2|18.5|True|R1|2025-08-12 14:33:20"]
     "202|B|b@x|2|2025-11-12|10:00|2|oops|True|R2|2025-08-12 14:33:21"
     ["203|C|c@x|3|2025-11-12|11:00|2|20.0|True|R3|2025-08-12 14:33:22"]
     (.field 7 "oops")
     (by with_unfolding_all decide) (by with_unfolding_all decide)⟩
/-- A parsed electricity CSV row as built by read_data in task_e.py and
task_d.py: timestamp, its date, and per-phase consumption and production in
whole Wh. -/
structure MeterRow where
  timestamp : DateTime
  date : Date
  consumption : Int × Int × Int
  production : Int × Int × Int
deriving DecidableEq

/-- The accumulating per-day totals in kWh: three consumption phases and
three production phases. -/
structure DayTotals where
  cons1 : ℚ
  cons2 : ℚ
  cons3 : ℚ
  prod1 : ℚ
  prod2 : ℚ
  prod3 : ℚ
deriving DecidableEq

/-- The zero-initialized totals entry created for a new date. -/
def zeroTotals : DayTotals := ⟨0, 0, 0, 0, 0, 0⟩

/-- Componentwise addition of totals. -/
def addT (a b : DayTotals) : DayTotals :=
  ⟨a.cons1 + b.cons1, a.cons2 + b.cons2, a.cons3 + b.cons3,
   a.prod1 + b.prod1, a.prod2 + b.prod2, a.prod3 + b.prod3⟩

/-- The kWh contribution of one row: each Wh phase divided by 1000. -/
def contrib (e : MeterRow) : DayTotals :=
  ⟨(e.consumption.1 : ℚ) / 1000, (e.consumption.2.1 : ℚ) / 1000,
   (e.consumption.2.2 : ℚ) / 1000, (e.production.1 : ℚ) / 1000,
   (e.production.2.1 : ℚ) / 1000, (e.production.2.2 : ℚ) / 1000⟩

/-- Dictionary lookup daily[d] (some value iff d is a key). -/
def lookupDay (d : Date) (daily : List (Date × DayTotals)) : Option DayTotals :=
  (daily.find? (fun p => p.1 = d)).map (fun p => p.2)

/-- In-place update of the entry of an existing key. -/
def updateAssoc (daily : List (Date × DayTotals)) (d : Date)
    (f : DayTotals → DayTotals) : List (Date × DayTotals) :=
  match daily with
  | [] => []
  | (k, v) :: rest =>
    if k = d then (k, f v) :: rest else (k, v) :: updateAssoc rest d f

/-- One iteration of the aggregation loop: create the zero entry when the
date is new, then add each phase value divided by 1000 to the totals. -/
def addEntry (daily : List (Date × DayTotals)) (e : MeterRow) :
    List (Date × DayTotals) :=
  match lookupDay e.date daily with
  | some _ => updateAssoc daily e.date (fun t => addT t (contrib e))
  | none => daily ++ [(e.date, addT zeroTotals (contrib e))]

/-- task_e.compute_daily_totals / task_d.compute_daily_totals (their bodies
are identical): fold the rows left to right into the daily dictionary. -/
def compute_daily_totals (rows : List MeterRow) : List (Date × DayTotals) :=
  rows.foldl addEntry []

/-- The specification totals of a date: each phase is the sum of that Wh
field over all rows of the date, divided by 1000. -/
def specTotals (rows : List MeterRow) (d : Date) : DayTotals :=
  ⟨(((rows.filter (fun e => e.date = d)).map (fun e => e.consumption.1)).sum : ℚ) / 1000,
   (((rows.filter (fun e => e.date = d)).map (fun e => e.consumption.2.1)).sum : ℚ) / 1000,
   (((rows.filter (fun e => e.date = d)).map (fun e => e.consumption.2.2)).sum : ℚ) / 1000,
   (((rows.filter (fun e => e.date = d)).map (fun e => e.production.1)).sum : ℚ) / 1000,
   (((rows.filter (fun e => e.date = d)).map (fun e => e.production.2.1)).sum : ℚ) / 1000,
   (((rows.filter (fun e => e.date = d)).map (fun e => e.production.2.2)).sum : ℚ) / 1000⟩

/-- Errors of read_data: a KeyError on a missing header column (the
SchemaError of the specification), a value failing coercion (ParseError), or
a row shorter than the header (DictReader pads with None, which the
coercions then reject). -/
inductive ReadErr where
  | schema (col : String)
  | parse (col : String) (raw : String)
  | shortRow (col : String)
deriving DecidableEq

/-- row[name] under csv.DictReader: find the column in the header, then take
the field at that index. -/
def lookupCol (header row : List String) (name : String) :
    Except ReadErr String :=
  match header.findIdx? (fun h => h == name) with
  | none => .error (.schema name)
  | some i =>
    match row.get? i with
    | some v => .ok v
    | none => .error (.shortRow name)

/-- datetime.fromisoformat on the forms the repository reads: a padded
calendar date, optionally followed by a space or T separator and a padded
HH:MM or HH:MM:SS time (fractional seconds and offsets are not modelled; the
weekNN.csv inputs carry none). -/
def parseIsoTimestamp (s : String) : Option DateTime :=
  match splitCh 'T' (s.data.map (fun c => if c == ' ' then 'T' else c)) with
  | [dpart] =>
    match parseDate ⟨dpart⟩ with
    | some d => if dpart.length == 10 then some ⟨d.year, d.month, d.day, 0, 0, 0⟩ else none
    | none => none
  | [dpart, tpart] =>
    match parseDate ⟨dpart⟩ with
    | some d =>
      if dpart.length == 10 then
        match splitCh ':' tpart with
        | [hs, ms] =>
          if hs.length == 2 && ms.length == 2 then
            match parseNum2 0 23 hs, parseNum2 0 59 ms with
            | some h, some mi => some ⟨d.year, d.month, d.day, h, mi, 0⟩
            | _, _ => none
          else none
        | [hs, ms, ss] =>
          if hs.length == 2 && ms.length == 2 && ss.length == 2 then
            match parseNum2 0 23 hs, parseNum2 0 59 ms, parseNum2 0 59 ss with
            | some h, some mi, some sec => some ⟨d.year, d.month, d.day, h, mi, sec⟩
            | _, _, _ => none
          else none
        | _ => none
      else none
    | none => none
  | _ => none

/-- int(row[name]) with the error naming the column. -/
def readIntField (header row : List String) (name : String) :
    Except ReadErr Int :=
  match lookupCol header row name with
  | .error e => .error e
  | .ok raw =>
    match pyInt raw with
    | some n => .ok n
    | none => .error (.parse name raw)

/-- One iteration of the read_data loop: look up Time and the six phase
columns in source order and coerce them. -/
def readRow (header row : List String) : Except ReadErr MeterRow :=
  match lookupCol header row "Time" with
  | .error e => .error e
  | .ok tRaw =>
  match parseIsoTimestamp tRaw with
  | none => .error (.parse "Time" tRaw)
  | some ts =>
  match readIntField header row "Consumption phase 1 Wh" with
  | .error e => .error e
  | .ok c1 =>
  match readIntField header row "Consumption phase 2 Wh" with
  | .error e => .error e
  | .ok c2 =>
  match readIntField header row "Consumption phase 3 Wh" with
  | .error e => .error e
  | .ok c3 =>
  match readIntField header row "Production phase 1 Wh" with
  | .error e => .error e
  | .ok p1 =>
  match readIntField header row "Production phase 2 Wh" with
  | .error e => .error e
  | .ok p2 =>
  match readIntField header row "Production phase 3 Wh" with
  | .error e => .error e
  | .ok p3 =>
    .ok ⟨ts, ts.date, (c1, c2, c3), (p1, p2, p3)⟩

/-- task_e.read_data / task_d.read_data over an already-line-split CSV: the
header row and the data rows; the first failing row aborts the read. -/
def read_data (header : List String) :
    List (List String) → Except ReadErr (List MeterRow)
  | [] => .ok []
  | r :: rs =>
    match readRow header r with
    | .error e => .error e
    | .ok m =>
      match read_data header rs with
      | .error e => .error e
      | .ok ms => .ok (m :: ms)
/-- Days before the first of a month within a year. -/
def daysBeforeMonth (y m : Nat) : Nat :=
  [0, 31, 59, 90, 120, 151, 181, 212, 243, 273, 304, 334].getD (m - 1) 0
    + (if 2 < m && isLeap y then 1 else 0)

/-- The proleptic Gregorian ordinal of a date (date.toordinal, with
0001-01-01 as day 1). -/
def toOrdinal (d : Date) : Nat :=
  365 * (d.year - 1) + (d.year - 1) / 4 - (d.year - 1) / 100
    + (d.year - 1) / 400 + daysBeforeMonth d.year d.month + d.day

/-- date.weekday(): 0 for Monday through 6 for Sunday. -/
def weekday (d : Date) : Nat :=
  (toOrdinal d + 6) % 7

/-- The Monday-first day names indexed by date.weekday() in both renderers. -/
def dayNames : List String :=
  ["Monday", "Tuesday", "Wednesday", "Thursday", "Friday", "Saturday", "Sunday"]

/-- d.strftime(%d.%m.%Y). -/
def renderDate (d : Date) : String :=
  pad2 d.day ++ "." ++ pad2 d.month ++ "." ++ Nat.repr d.year

/-- Python format left-justification {x:<w}: pad with spaces to width w. -/
def ljust (s : String) (w : Nat) : String :=
  s ++ String.mk (List.replicate (w - s.length) ' ')

/-- Python date comparison: lexicographic on (year, month, day). -/
def dateLe (a b : Date) : Bool :=
  a.year < b.year
    || (a.year == b.year
        && (a.month < b.month || (a.month == b.month && a.day ≤ b.day)))

/-- Insert into a sorted list, keeping earlier elements first on ties (the
stability of Python sorted). -/
def insertBy (le : α → α → Bool) (x : α) : List α → List α
  | [] => [x]
  | y :: ys => if le x y then x :: y :: ys else y :: insertBy le x ys

/-- Insertion sort; extensionally the ascending order that Python sorted
produces for a total order. -/
def isort (le : α → α → Bool) : List α → List α
  | [] => []
  | x :: xs => insertBy le x (isort le xs)

/-- sorted(daily.keys()). -/
def sortedDates (daily : List (Date × DayTotals)) : List Date :=
  isort dateLe (daily.map (fun p => p.1))

/-- One data row of the weekly table: day name, dd.mm.yyyy date, the three
consumption totals and the three production totals, each formatted by
format_kwh and joined by the pipe separator, left-justified to widths 12, 11
and 27. -/
def renderRow (d : Date) (t : DayTotals) : String :=
  ljust (dayNames.getD (weekday d) "") 12 ++ " "
    ++ ljust (renderDate d) 11 ++ " "
    ++ ljust (joinSep " | " [format_kwh t.cons1, format_kwh t.cons2, format_kwh t.cons3]) 27
    ++ " " ++ joinSep " | " [format_kwh t.prod1, format_kwh t.prod2, format_kwh t.prod3]

/-- The four leading lines of the weekly table. -/
def headerLines (week_number : Nat) : List String :=
  ["Week " ++ Nat.repr week_number ++ " - Electricity Report (kWh)\n",
   "Day          Date        Consumption (kWh)      Production (kWh)",
   "           (dd.mm.yyyy)  v1    | v2   | v3           v1   |  v2  | v3",
   String.mk (List.replicate 70 '-')]

/-- The lines list built by task_e.generate_table_text (task_d.print_table
prints the same rows with a fixed Week 42 title). -/
def tableLines (week_number : Nat) (daily : List (Date × DayTotals)) :
    List String :=
  headerLines week_number
    ++ (sortedDates daily).map
        (fun d => renderRow d ((lookupDay d daily).getD zeroTotals))
    ++ ["\n"]

/-- task_e.generate_table_text: the joined weekly table text. -/
def generate_table_text (week_number : Nat)
    (daily : List (Date × DayTotals)) : String :=
  joinSep "\n" (tableLines week_number daily)

/-- pathlib stem of a file name: the name with its final dot-suffix removed
(a lone leading dot is not a suffix). -/
def stemOf (name : String) : String :=
  match splitCh '.' name.data with
  | [] => name
  | [_] => name
  | p :: rest =>
    if p.isEmpty && rest.length == 1 then name
    else joinSep "." (((p :: rest).dropLast).map String.mk)

/-- The week number of a stem: the concatenated digit characters, or 0 when
there are none (week_digits.isdigit() is false exactly on the empty string
once every character is a digit). -/
def weekNumberOf (stem : String) : Nat :=
  let ds := stem.data.filter Char.isDigit
  if ds.isEmpty then 0 else digitsVal ds

/-- Code-point comparison of strings, the order Python sorted applies to
same-directory Path values. -/
def charsLe : List Char → List Char → Bool
  | [], _ => true
  | _ :: _, [] => false
  | a :: as, b :: bs => if a == b then charsLe as bs else decide (a < b)

/-- task_e.main over the discovered files, modelled as pairs of a file name
and the rows its CSV parses to: sort by file name, derive each week number
from the stem digits, render each table, and join the texts with a newline
(each table already ends in a blank line). -/
def runBatch (files : List (String × List MeterRow)) : String :=
  joinSep "\n"
    ((isort (fun a b => charsLe a.1.data b.1.data) files).map
      (fun f => generate_table_text (weekNumberOf (stemOf f.1))
        (compute_daily_totals f.2)))
/-- Totals algebra: adding the empty-sum totals on the right is the identity. -/
theorem addT_spec_nil (t : DayTotals) (d : Date) :
    addT t (specTotals [] d) = t := by
  simp [addT, specTotals]

/-- Totals algebra: associativity of componentwise addition. -/
theorem addT_assoc (a b c : DayTotals) :
    addT (addT a b) c = addT a (addT b c) := by
  simp [addT, add_assoc]

/-- Totals algebra: the zero entry is a left identity. -/
theorem zeroTotals_addT (b : DayTotals) : addT zeroTotals b = b := by
  simp [addT, zeroTotals]

/-- specTotals over a cons whose head has the date d. -/
theorem specTotals_cons_eq (e : MeterRow) (rest : List MeterRow) (d : Date)
    (he : e.date = d) :
    specTotals (e :: rest) d = addT (contrib e) (specTotals rest d) := by
  simp [specTotals, addT, contrib, he, add_div]

/-- specTotals over a cons whose head has another date. -/
theorem specTotals_cons_ne (e : MeterRow) (rest : List MeterRow) (d : Date)
    (he : ¬ e.date = d) :
    specTotals (e :: rest) d = specTotals rest d := by
  simp [specTotals, he]

/-- Lookup after an in-place update. -/
theorem lookupDay_updateAssoc (daily : List (Date × DayTotals)) (d k : Date)
    (f : DayTotals → DayTotals) :
    lookupDay d (updateAssoc daily k f)
      = if k = d then (lookupDay d daily).map f else lookupDay d daily := by
  induction daily with
  | nil => by_cases h : k = d <;> simp [updateAssoc, lookupDay, h]
  | cons p rest ih =>
    obtain ⟨pk, pv⟩ := p
    by_cases hk : pk = k
    · subst hk
      by_cases hd : pk = d
      · subst hd
        simp [updateAssoc, lookupDay, List.find?]
      · simp only [updateAssoc, if_pos rfl]
        simp [lookupDay, List.find?, hd]
    · by_cases hd : pk = d
      · subst hd
        have hkd : ¬ k = pk := fun h => hk h.symm
        simp [updateAssoc, hk, lookupDay, List.find?, hkd]
      · simp only [updateAssoc, if_neg hk]
        simp only [lookupDay, List.find?, decide_eq_true_eq] at ih ⊢
        simp [hd, ih]

/-- Lookup after appending a fresh entry at the end. -/
theorem lookupDay_append (daily : List (Date × DayTotals)) (k : Date)
    (v : DayTotals) (d : Date) :
    lookupDay d (daily ++ [(k, v)])
      = match lookupDay d daily with
        | some t => some t
        | none => if k = d then some v else none := by
  induction daily with
  | nil => by_cases h : k = d <;> simp [lookupDay, List.find?, h]
  | cons p rest ih =>
    obtain ⟨pk, pv⟩ := p
    by_cases hd : pk = d
    · subst hd
      simp [lookupDay, List.find?]
    · have h1 : ∀ tail : List (Date × DayTotals),
          List.find? (fun p => decide (p.1 = d)) ((pk, pv) :: tail)
            = List.find? (fun p => decide (p.1 = d)) tail := by
        intro tail
        rw [List.find?_cons]
        simp [hd]
      simp only [lookupDay, List.cons_append, h1]
      simp only [lookupDay] at ih
      exact ih

/-- A date is a key of the dictionary iff its lookup is some value. -/
theorem mem_keys_iff_lookup (daily : List (Date × DayTotals)) (d : Date) :
    d ∈ daily.map (fun p => p.1) ↔ (lookupDay d daily).isSome = true := by
  induction daily with
  | nil => simp [lookupDay]
  | cons p rest ih =>
    obtain ⟨pk, pv⟩ := p
    by_cases hd : pk = d
    · subst hd
      simp [lookupDay, List.find?]
    · have hd2 : ¬ d = pk := fun h => hd h.symm
      simp [lookupDay, List.find?, hd, hd2] at ih ⊢

/-- Folding more rows on top of a dictionary that already holds the date d
adds exactly the per-phase sums of the new rows of that date. -/
theorem lookupDay_foldl_some (d : Date) :
    ∀ (rows : List MeterRow) (acc : List (Date × DayTotals)) (t : DayTotals),
      lookupDay d acc = some t →
      lookupDay d (rows.foldl addEntry acc) = some (addT t (specTotals rows d)) := by
  intro rows
  induction rows with
  | nil =>
    intro acc t h
    simp [addT_spec_nil, h]
  | cons e rest ih =>
    intro acc t h
    by_cases he : e.date = d
    · have hlook : lookupDay e.date acc = some t := by rw [he]; exact h
      have hstep : addEntry acc e = updateAssoc acc e.date (fun u => addT u (contrib e)) := by
        simp [addEntry, hlook]
      have hacc : lookupDay d (addEntry acc e) = some (addT t (contrib e)) := by
        rw [hstep, he, lookupDay_updateAssoc, if_pos rfl, h]
        rfl
      have := ih (addEntry acc e) (addT t (contrib e)) hacc
      rw [List.foldl_cons, this, specTotals_cons_eq e rest d he, addT_assoc]
    · have hacc : lookupDay d (addEntry acc e) = some t := by
        unfold addEntry
        cases hl : lookupDay e.date acc with
        | some u =>
          rw [lookupDay_updateAssoc, if_neg he, h]
        | none =>
          rw [lookupDay_append, h]
      have := ih (addEntry acc e) t hacc
      rw [List.foldl_cons, this, specTotals_cons_ne e rest d he]

/-- Folding rows on top of a dictionary without the date d yields the
per-phase sums of the rows of d, or no entry when no row carries d. -/
theorem lookupDay_foldl_none (d : Date) :
    ∀ (rows : List MeterRow) (acc : List (Date × DayTotals)),
      lookupDay d acc = none →
      lookupDay d (rows.foldl addEntry acc)
        = if rows.any (fun e => e.date = d) then some (specTotals rows d)
          else none := by
  intro rows
  induction rows with
  | nil =>
    intro acc h
    simp [h]
  | cons e rest ih =>
    intro acc h
    by_cases he : e.date = d
    · have hlook : lookupDay e.date acc = none := by rw [he]; exact h
      have hstep : addEntry acc e = acc ++ [(e.date, addT zeroTotals (contrib e))] := by
        simp [addEntry, hlook]
      have hacc : lookupDay d (addEntry acc e)
          = some (addT zeroTotals (contrib e)) := by
        rw [hstep, he, lookupDay_append, h, if_pos rfl]
      have := lookupDay_foldl_some d rest (addEntry acc e) _ hacc
      rw [List.foldl_cons, this, zeroTotals_addT]
      have hany : (e :: rest).any (fun e2 => e2.date = d) = true := by
        simp [List.any_cons, he]
      rw [if_pos hany, specTotals_cons_eq e rest d he]
    · have hacc : lookupDay d (addEntry acc e) = none := by
        unfold addEntry
        cases hl : lookupDay e.date acc with
        | some u =>
          rw [lookupDay_updateAssoc, if_neg he, h]
        | none =>
          rw [lookupDay_append, h, if_neg he]
      have := ih (addEntry acc e) hacc
      rw [List.foldl_cons, this, specTotals_cons_ne e rest d he]
      have : (e :: rest).any (fun e2 => e2.date = d)
          = rest.any (fun e2 => e2.date = d) := by
        simp [List.any_cons, he]
      rw [this]

/-- The closed form of the aggregation: the entry of a date is the per-phase
sum of its rows when such rows exist, and absent otherwise. -/
theorem lookupDay_compute (rows : List MeterRow) (d : Date) :
    lookupDay d (compute_daily_totals rows)
      = if rows.any (fun e => e.date = d) then some (specTotals rows d)
        else none :=
  lookupDay_foldl_none d rows [] rfl
/-- The two rows of the C2 test property: one day, consumption phase 1 of
1000 Wh and 2000 Wh. -/
def rowWed9 : MeterRow :=
  ⟨⟨2025, 11, 12, 9, 0, 0⟩, ⟨2025, 11, 12⟩, (1000, 0, 0), (0, 0, 0)⟩

def rowWed10 : MeterRow :=
  ⟨⟨2025, 11, 12, 10, 0, 0⟩, ⟨2025, 11, 12⟩, (2000, 0, 0), (0, 0, 0)⟩

/-- C2: for every input and every date present in the aggregation, the stored
totals equal the per-phase sums of the Wh fields of the rows of that date
divided by 1000; on the two-row one-day instance the phase-1 total is 3 kWh
and format_kwh renders it as 3,00. -/
theorem daily_totals_conservation :
    (∀ (rows : List MeterRow) (d : Date),
        d ∈ (compute_daily_totals rows).map (fun p => p.1) →
        lookupDay d (compute_daily_totals rows) = some (specTotals rows d))
    ∧ lookupDay ⟨2025, 11, 12⟩ (compute_daily_totals [rowWed9, rowWed10])
        = some ⟨3, 0, 0, 0, 0, 0⟩
    ∧ format_kwh 3 = "3,00" := by
  refine ⟨?_, by with_unfolding_all decide, by with_unfolding_all decide⟩
  intro rows d hmem
  rw [mem_keys_iff_lookup, lookupDay_compute] at hmem
  rw [lookupDay_compute]
  by_cases hany : rows.any (fun e => e.date = d) = true
  · rw [if_pos hany]
  · rw [if_neg hany] at hmem
    simp at hmem

/-- Witness for C2: the date of the two concrete rows is a key, and the
theorem computes its totals as the specification sums. -/
theorem daily_totals_conservation_witness :
    (⟨2025, 11, 12⟩ : Date)
        ∈ (compute_daily_totals [rowWed9, rowWed10]).map (fun p => p.1)
    ∧ lookupDay ⟨2025, 11, 12⟩ (compute_daily_totals [rowWed9, rowWed10])
        = some (specTotals [rowWed9, rowWed10] ⟨2025, 11, 12⟩) :=
  ⟨by with_unfolding_all decide,
   daily_totals_conservation.1 [rowWed9, rowWed10] ⟨2025, 11, 12⟩
     (by with_unfolding_all decide)⟩

/-- specTotals only depends on the multiset of rows. -/
theorem specTotals_perm (rows rows2 : List MeterRow) (h : List.Perm rows rows2)
    (d : Date) : specTotals rows d = specTotals rows2 d := by
  have hf : List.Perm (rows.filter (fun e => e.date = d))
      (rows2.filter (fun e => e.date = d)) := h.filter _
  simp only [specTotals]
  rw [(hf.map (fun e => (e.consumption.1 : ℚ))).sum_eq,
      (hf.map (fun e => (e.consumption.2.1 : ℚ))).sum_eq,
      (hf.map (fun e => (e.consumption.2.2 : ℚ))).sum_eq,
      (hf.map (fun e => (e.production.1 : ℚ))).sum_eq,
      (hf.map (fun e => (e.production.2.1 : ℚ))).sum_eq,
      (hf.map (fun e => (e.production.2.2 : ℚ))).sum_eq]

/-- any is determined by the multiset of rows. -/
theorem any_perm_eq (rows rows2 : List MeterRow) (h : List.Perm rows rows2)
    (p : MeterRow → Bool) : rows.any p = rows2.any p := by
  rcases hb : rows2.any p with _ | _
  · rw [Bool.eq_false_iff]
    intro hc
    rw [List.any_eq_true] at hc
    rcases hc with ⟨x, hx, hpx⟩
    have : rows2.any p = true := List.any_eq_true.mpr ⟨x, h.mem_iff.mp hx, hpx⟩
    rw [hb] at this
    exact Bool.false_ne_true this
  · rw [List.any_eq_true] at hb ⊢
    rcases hb with ⟨x, hx, hpx⟩
    exact ⟨x, h.mem_iff.mpr hx, hpx⟩

/-- C3: aggregation is order-independent: permuting the rows yields the same
key set and the same totals at every date. -/
theorem daily_totals_perm_invariant (rows rows2 : List MeterRow)
    (h : List.Perm rows rows2) (d : Date) :
    (d ∈ (compute_daily_totals rows).map (fun p => p.1) ↔
        d ∈ (compute_daily_totals rows2).map (fun p => p.1))
    ∧ lookupDay d (compute_daily_totals rows)
        = lookupDay d (compute_daily_totals rows2) := by
  have hl : lookupDay d (compute_daily_totals rows)
      = lookupDay d (compute_daily_totals rows2) := by
    rw [lookupDay_compute, lookupDay_compute,
        any_perm_eq rows rows2 h (fun e => decide (e.date = d)),
        specTotals_perm rows rows2 h d]
  exact ⟨by rw [mem_keys_iff_lookup, mem_keys_iff_lookup, hl], hl⟩

/-- The rows used by the C3 witness: two distinct days, swapped. -/
def rowTue : MeterRow :=
  ⟨⟨2025, 11, 11, 9, 0, 0⟩, ⟨2025, 11, 11⟩, (500, 600, 700), (1, 2, 3)⟩

def rowWed : MeterRow :=
  ⟨⟨2025, 11, 12, 9, 0, 0⟩, ⟨2025, 11, 12⟩, (1000, 0, 0), (40, 0, 0)⟩

/-- Witness for C3: swapping two concrete rows preserves the key set and the
totals of their dates. -/
theorem daily_totals_perm_invariant_witness :
    List.Perm [rowTue, rowWed] [rowWed, rowTue]
    ∧ ((⟨2025, 11, 11⟩ : Date)
          ∈ (compute_daily_totals [rowTue, rowWed]).map (fun p => p.1) ↔
        (⟨2025, 11, 11⟩ : Date)
          ∈ (compute_daily_totals [rowWed, rowTue]).map (fun p => p.1))
    ∧ lookupDay ⟨2025, 11, 11⟩ (compute_daily_totals [rowTue, rowWed])
        = lookupDay ⟨2025, 11, 11⟩ (compute_daily_totals [rowWed, rowTue]) :=
  ⟨List.Perm.swap rowWed rowTue [],
   (daily_totals_perm_invariant [rowTue, rowWed] [rowWed, rowTue]
     (List.Perm.swap rowWed rowTue []) ⟨2025, 11, 11⟩).1,
   (daily_totals_perm_invariant [rowTue, rowWed] [rowWed, rowTue]
     (List.Perm.swap rowWed rowTue []) ⟨2025, 11, 11⟩).2⟩
/-- insertBy yields a permutation of the cons. -/
theorem insertBy_perm (le : α → α → Bool) (x : α) (l : List α) :
    List.Perm (insertBy le x l) (x :: l) := by
  induction l with
  | nil => exact List.Perm.refl _
  | cons y ys ih =>
    by_cases h : le x y = true
    · simp [insertBy, h]
    · simp only [insertBy, h, if_false, Bool.false_eq_true]
      exact (ih.cons y).trans (List.Perm.swap x y ys)

/-- isort yields a permutation of its input. -/
theorem isort_perm (le : α → α → Bool) (l : List α) :
    List.Perm (isort le l) l := by
  induction l with
  | nil => exact List.Perm.refl _
  | cons x xs ih => exact (insertBy_perm le x (isort le xs)).trans (ih.cons x)

/-- insertBy preserves sortedness for a total transitive comparison. -/
theorem pairwise_insertBy (le : α → α → Bool)
    (htot : ∀ a b, le a b = false → le b a = true)
    (htrans : ∀ a b c, le a b = true → le b c = true → le a c = true)
    (x : α) (l : List α) (h : l.Pairwise (fun a b => le a b = true)) :
    (insertBy le x l).Pairwise (fun a b => le a b = true) := by
  induction l with
  | nil => simp [insertBy]
  | cons y ys ih =>
    rw [List.pairwise_cons] at h
    obtain ⟨hy, hys⟩ := h
    by_cases hxy : le x y = true
    · simp only [insertBy, hxy, if_true]
      rw [List.pairwise_cons]
      refine ⟨?_, List.pairwise_cons.mpr ⟨hy, hys⟩⟩
      intro z hz
      rcases List.mem_cons.mp hz with rfl | hz2
      · exact hxy
      · exact htrans x y z hxy (hy z hz2)
    · have hyx : le y x = true := htot x y (Bool.not_eq_true (le x y) ▸ hxy)
      simp only [insertBy, hxy, if_false, Bool.false_eq_true]
      rw [List.pairwise_cons]
      refine ⟨?_, ih hys⟩
      intro z hz
      rcases List.mem_cons.mp ((insertBy_perm le x ys).mem_iff.mp hz) with rfl | hz2
      · exact hyx
      · exact hy z hz2

/-- isort sorts for a total transitive comparison. -/
theorem pairwise_isort (le : α → α → Bool)
    (htot : ∀ a b, le a b = false → le b a = true)
    (htrans : ∀ a b c, le a b = true → le b c = true → le a c = true)
    (l : List α) : (isort le l).Pairwise (fun a b => le a b = true) := by
  induction l with
  | nil => simp [isort]
  | cons x xs ih => exact pairwise_insertBy le htot htrans x (isort le xs) ih

/-- dateLe is total. -/
theorem dateLe_total (a b : Date) (h : dateLe a b = false) : dateLe b a = true := by
  simp only [dateLe, Bool.or_eq_false_iff, Bool.and_eq_false_imp,
    Bool.or_eq_true, Bool.and_eq_true, decide_eq_true_eq, decide_eq_false_iff_not,
    beq_iff_eq] at h ⊢
  omega

/-- dateLe is transitive. -/
theorem dateLe_trans (a b c : Date) (hab : dateLe a b = true)
    (hbc : dateLe b c = true) : dateLe a c = true := by
  simp only [dateLe, Bool.or_eq_true, Bool.and_eq_true, decide_eq_true_eq,
    beq_iff_eq] at hab hbc ⊢
  omega
/-- C6: the weekly table is the header block, one rendered row per date of
the aggregation in ascending date order, and a closing blank line; the data
row carries the Monday-first weekday name, the dd.mm.yyyy date and the six
totals in the fixed-width layout, and an empty aggregation produces the
header and separator lines only. -/
theorem week_table_rows :
    (∀ (w : Nat) (daily : List (Date × DayTotals)),
        generate_table_text w daily
          = joinSep "\n" (headerLines w
              ++ (sortedDates daily).map
                  (fun d => renderRow d ((lookupDay d daily).getD zeroTotals))
              ++ ["\n"]))
    ∧ (∀ daily : List (Date × DayTotals),
        List.Perm (sortedDates daily) (daily.map (fun p => p.1)))
    ∧ (∀ daily : List (Date × DayTotals),
        (sortedDates daily).Pairwise (fun a b => dateLe a b = true))
    ∧ renderRow ⟨2025, 11, 10⟩ ⟨1, 2, 3, 4, 5, 6⟩
        = "Monday       10.11.2025  1,00 | 2,00 | 3,00          4,00 | 5,00 | 6,00"
    ∧ generate_table_text 7 []
        = "Week 7 - Electricity Report (kWh)\n\nDay          Date        Consumption (kWh)      Production (kWh)\n           (dd.mm.yyyy)  v1    | v2   | v3           v1   |  v2  | v3\n----------------------------------------------------------------------\n\n" := by
  refine ⟨fun w daily => rfl, fun daily => isort_perm _ _,
    fun daily => pairwise_isort _ dateLe_total dateLe_trans _,
    by with_unfolding_all decide, by with_unfolding_all decide⟩

/-- Joining a list that ends in an extra element appends the separator and
that element. -/
theorem joinSep_snoc (sep x a : String) (l : List String) :
    joinSep sep (a :: l ++ [x]) = joinSep sep (a :: l) ++ sep ++ x := by
  induction l generalizing a with
  | nil => rfl
  | cons b bs ih =>
    have h1 : joinSep sep (a :: b :: bs ++ [x])
        = a ++ sep ++ joinSep sep (b :: bs ++ [x]) := rfl
    have h2 : joinSep sep (a :: b :: bs)
        = a ++ sep ++ joinSep sep (b :: bs) := rfl
    rw [h1, h2, ih b]
    simp [String.append_assoc]

/-- C7: the batch driver processes week files in file-name-sorted order with
week numbers read off the stem digits (week1, week10, week2 give 1, 10, 2),
defaults the week number to 0 for a digitless stem, and joins the rendered
tables, each of which ends in a blank line, with single newlines. -/
theorem batch_order_week_numbers :
    (∀ r1 r2 r10 : List MeterRow,
        runBatch [("week10.csv", r10), ("week2.csv", r2), ("week1.csv", r1)]
          = joinSep "\n"
              [generate_table_text 1 (compute_daily_totals r1),
               generate_table_text 10 (compute_daily_totals r10),
               generate_table_text 2 (compute_daily_totals r2)])
    ∧ weekNumberOf (stemOf "week1.csv") = 1
    ∧ weekNumberOf (stemOf "week10.csv") = 10
    ∧ weekNumberOf (stemOf "week2.csv") = 2
    ∧ (∀ s : String, s.data.filter Char.isDigit = [] → weekNumberOf s = 0)
    ∧ (∀ (w : Nat) (daily : List (Date × DayTotals)),
        generate_table_text w daily
          = joinSep "\n" (headerLines w
              ++ (sortedDates daily).map
                  (fun d => renderRow d ((lookupDay d daily).getD zeroTotals)))
            ++ "\n" ++ "\n") := by
  refine ⟨fun r1 r2 r10 => rfl,
    by with_unfolding_all decide, by with_unfolding_all decide,
    by with_unfolding_all decide, ?_, ?_⟩
  · intro s h
    simp [weekNumberOf, h]
  · intro w daily
    show joinSep "\n" (headerLines w ++ ((sortedDates daily).map _ ++ ["\n"])) = _
    rw [← List.append_assoc]
    have : headerLines w
        ++ (sortedDates daily).map
            (fun d => renderRow d ((lookupDay d daily).getD zeroTotals))
        = ("Week " ++ Nat.repr w ++ " - Electricity Report (kWh)\n")
          :: (headerLines w).tail
            ++ (sortedDates daily).map
                (fun d => renderRow d ((lookupDay d daily).getD zeroTotals)) := rfl
    rw [this, List.cons_append, joinSep_snoc]

/-- Witness for C7: a digitless stem gets week number 0. -/
theorem batch_order_week_numbers_witness :
    ("week".data.filter Char.isDigit = ([] : List Char))
    ∧ weekNumberOf "week" = 0 :=
  ⟨by with_unfolding_all decide,
   batch_order_week_numbers.2.2.2.2.1 "week" (by with_unfolding_all decide)⟩

/-- The column names read_data requires. -/
def expectedCols : List String :=
  ["Time", "Consumption phase 1 Wh", "Consumption phase 2 Wh",
   "Consumption phase 3 Wh", "Production phase 1 Wh", "Production phase 2 Wh",
   "Production phase 3 Wh"]

/-- A name absent from the header is never found, from any start index. -/
theorem findIdx_none_of_not_mem (name : String) (header : List String) :
    ∀ i : Nat, ¬ name ∈ header →
      List.findIdx? (fun x => x == name) header i = none := by
  induction header with
  | nil => intro i h; rfl
  | cons a rest ih =>
    intro i h
    have ha : ¬ a = name := fun hh => h (by rw [hh]; exact List.mem_cons_self name rest)
    rw [List.findIdx?_cons]
    have hrest := ih (i + 1) (fun hm => h (List.mem_cons_of_mem a hm))
    simp [ha, hrest]
    intro x hx hxn
    exact h (List.mem_cons_of_mem a (hxn ▸ hx))

/-- A found name is a member of the header, from any start index. -/
theorem findIdx_some_mem (name : String) (header : List String) :
    ∀ (i j : Nat),
      List.findIdx? (fun x => x == name) header i = some j → name ∈ header := by
  induction header with
  | nil => intro i j h; exact absurd h (by simp)
  | cons a rest ih =>
    intro i j h
    rw [List.findIdx?_cons] at h
    by_cases pa : a = name
    · rw [pa]; exact List.mem_cons_self name rest
    · simp only [beq_iff_eq, pa] at h
      simp only [if_false] at h
      exact List.mem_cons_of_mem a (ih (i + 1) j (by simpa using h))

/-- A successful cell lookup implies the column is in the header. -/
theorem lookupCol_ok_mem (header row : List String) (name v : String)
    (h : lookupCol header row name = .ok v) : name ∈ header := by
  unfold lookupCol at h
  cases hf : header.findIdx? (fun x => x == name) with
  | none => simp [hf] at h
  | some i => exact findIdx_some_mem name header 0 i hf

/-- A successful integer cell read implies the column is in the header. -/
theorem readIntField_ok_mem (header row : List String) (name : String) (n : Int)
    (h : readIntField header row name = .ok n) : name ∈ header := by
  unfold readIntField at h
  cases hl : lookupCol header row name with
  | error e => simp [hl] at h
  | ok raw => exact lookupCol_ok_mem header row name raw hl

/-- A successfully read row certifies that every expected column is present. -/
theorem readRow_ok_mem (header row : List String) (m : MeterRow)
    (hok : readRow header row = .ok m) :
    ∀ name ∈ expectedCols, name ∈ header := by
  intro name hname
  unfold readRow at hok
  cases h1 : lookupCol header row "Time" with
  | error e => simp [h1] at hok
  | ok tRaw =>
  simp only [h1] at hok
  cases h2 : parseIsoTimestamp tRaw with
  | none => simp [h2] at hok
  | some ts =>
  simp only [h2] at hok
  cases h3 : readIntField header row "Consumption phase 1 Wh" with
  | error e => simp [h3] at hok
  | ok c1 =>
  simp only [h3] at hok
  cases h4 : readIntField header row "Consumption phase 2 Wh" with
  | error e => simp [h4] at hok
  | ok c2 =>
  simp only [h4] at hok
  cases h5 : readIntField header row "Consumption phase 3 Wh" with
  | error e => simp [h5] at hok
  | ok c3 =>
  simp only [h5] at hok
  cases h6 : readIntField header row "Production phase 1 Wh" with
  | error e => simp [h6] at hok
  | ok p1 =>
  simp only [h6] at hok
  cases h7 : readIntField header row "Production phase 2 Wh" with
  | error e => simp [h7] at hok
  | ok p2 =>
  simp only [h7] at hok
  cases h8 : readIntField header row "Production phase 3 Wh" with
  | error e => simp [h8] at hok
  | ok p3 =>
  simp only [expectedCols, List.mem_cons, List.mem_singleton] at hname
  rcases hname with rfl | rfl | rfl | rfl | rfl | rfl | rfl | h0
  · exact lookupCol_ok_mem header row _ tRaw h1
  · exact readIntField_ok_mem header row _ c1 h3
  · exact readIntField_ok_mem header row _ c2 h4
  · exact readIntField_ok_mem header row _ c3 h5
  · exact readIntField_ok_mem header row _ p1 h6
  · exact readIntField_ok_mem header row _ p2 h7
  · exact readIntField_ok_mem header row _ p3 h8
  · exact absurd h0 (by simp)

/-- C9 counterexample: with the Time column absent but no data rows, the
DictReader loop never touches a cell, so read_data returns the empty record
list instead of failing with a schema error. -/
theorem read_data_missing_header_empty :
    ¬ "Time" ∈ (["Foo"] : List String)
    ∧ read_data ["Foo"] [] = .ok [] :=
  ⟨by decide, rfl⟩

/-- C9 (amended): when at least one data row is present, a missing expected
column makes read_data fail instead of returning records, and a missing Time
column fails with exactly the schema error naming Time; with zero data rows
the missing header goes undetected. -/
theorem read_data_missing_header_fails :
    (∀ (header r : List String) (rs : List (List String)),
        ¬ "Time" ∈ header →
        read_data header (r :: rs) = .error (.schema "Time"))
    ∧ (∀ (header r : List String) (rs : List (List String)) (name : String),
        name ∈ expectedCols → ¬ name ∈ header →
        ∀ ms : List MeterRow, ¬ read_data header (r :: rs) = .ok ms) := by
  constructor
  · intro header r rs hmem
    have hf : header.findIdx? (fun x => x == "Time") = none :=
      findIdx_none_of_not_mem "Time" header 0 hmem
    simp [read_data, readRow, lookupCol, hf]
  · intro header r rs name hexp hmem ms hok
    unfold read_data at hok
    cases hr : readRow header r with
    | error e => simp [hr] at hok
    | ok m => exact hmem (readRow_ok_mem header r m hr name hexp)

/-- Witness for C9: a header without Time and one data row produce the schema
error naming Time. -/
theorem read_data_missing_header_fails_witness :
    ¬ "Time" ∈ (["Foo"] : List String)
    ∧ read_data ["Foo"] [["x"]] = .error (.schema "Time") :=
  ⟨by decide, read_data_missing_header_fails.1 ["Foo"] ["x"] [] (by decide)⟩
